import Mathlib

/-!
Shallow embedding of the local cache store (`src/db.rs`) and the incremental
issue-sync controller (`src/app/data_loader.rs`) of the `minecli` terminal
client, together with proofs settling the frozen claims about them.

Modelling conventions:
* Timestamps (`DateTime<Utc>` in the source, stored as RFC3339 `TEXT`) are
  modelled as naturals.  `to_rfc3339` / `parse_from_rfc3339` round-trip and
  are strictly monotone, so SQL `MAX` and `ORDER BY` over the stored strings
  coincide with `MAX` / ordering over these naturals; the epoch literal
  `'1970-01-01T00:00:00Z'` used in `COALESCE` is modelled as `0`.
* SQL tables are lists of row structures; `INSERT OR REPLACE` deletes the
  row with the conflicting primary key and appends the new row, matching
  SQLite's delete-then-insert semantics.  Its `AUTOINCREMENT` rowid for
  `journal_details` is a counter threaded through the state.
* `ORDER BY` is modelled as a stable insertion sort on the comparison key.
  SQLite leaves the relative order of rows with equal keys unspecified, so
  any tie-order fact proved here is a fact about this deterministic
  refinement, and claims are settled accordingly.
* SQL `LIKE` is embedded by `likeMatch` with SQLite's default semantics:
  `%` matches any sequence, `_` any single character, and letter comparison
  folds ASCII case only.  A `NULL` column never satisfies a `LIKE`.
* The Rust `f32` fields of `Issue` (hour counters) are modelled as rational
  numbers; the cache layer never stores or compares them.
* Fallible operations (a plain `INSERT` hitting a primary-key conflict
  aborts the surrounding transaction) return `Except String`; on an error
  the whole transaction rolls back, so the state is returned unchanged.
* The `users` table and its operations, the `metadata` read accessors and
  UI-only concerns (`apply_filters`, cursor state, rendering) are outside
  every claim and are not modelled; `insert_projects` still stamps the
  `projects_last_synced` metadata key, kept as a dedicated field.
  In `load_issues_next_page` the remote client is an oracle parameter: a
  function from the exact argument tuple the code passes to the typed
  response or error.
-/

namespace Minecli

/-- An id plus display name pair, `redmine::IdName`. -/
structure IdName where
  id : Nat
  name : String
deriving DecidableEq

/-- A single field change inside a journal, `redmine::JournalDetail`. -/
structure JournalDetail where
  property : String
  name : String
  old_value : Option String
  new_value : Option String
deriving DecidableEq

/-- A comment / change event of an issue, `redmine::Journal`. -/
structure Journal where
  id : Nat
  user : IdName
  notes : Option String
  created_on : Nat
  private_notes : Bool
  details : List JournalDetail
deriving DecidableEq

/-- A custom field value attached to an issue, `redmine::IssueCustomField`.
The cache never persists these. -/
structure IssueCustomField where
  id : Nat
  name : String
  value : Option String
deriving DecidableEq

/-- A file attached to an issue, `redmine::Attachment`; never persisted by
the cache. -/
structure Attachment where
  id : Nat
  filename : String
  filesize : Nat
  content_url : String
deriving DecidableEq

/-- The in-memory issue record, `redmine::Issue`.  Hour counters (`f32` in
the source) are rationals here; the cache never persists them. -/
structure Issue where
  id : Nat
  project : IdName
  tracker : IdName
  status : IdName
  priority : IdName
  author : IdName
  assigned_to : Option IdName
  parent : Option IdName
  category : Option IdName
  fixed_version : Option IdName
  subject : String
  description : Option String
  start_date : Option String
  due_date : Option String
  done_percent : Option Nat  -- `done_ratio` in the source
  is_private : Option Bool
  estimated_hours : Option Rat
  total_estimated_hours : Option Rat
  spent_hours : Option Rat
  total_spent_hours : Option Rat
  created_on : Nat
  updated_on : Nat
  closed_on : Option Nat
  journals : List Journal
  custom_fields : List IssueCustomField
  attachments : List Attachment
deriving DecidableEq

/-- The in-memory project record, `redmine::Project`. -/
structure Project where
  id : Nat
  name : String
  identifier : String
  description : Option String
  status : Option Nat
  parent : Option IdName
  created_on : Option Nat
  updated_on : Option Nat
  last_issue_activity : Option Nat
  last_issues_sync : Option Nat
deriving DecidableEq

/-- A row of the `projects` table. -/
structure ProjectRow where
  id : Nat
  name : String
  identifier : String
  description : Option String
  status : Option Nat
  parent_id : Option Nat
  parent_name : Option String
  created_on : Option Nat
  updated_on : Option Nat
  last_issue_activity : Option Nat
  last_issues_sync : Option Nat
deriving DecidableEq

/-- A row of the `issues` table (denormalized names alongside ids). -/
structure IssueRow where
  id : Nat
  project_id : Nat
  tracker_id : Nat
  tracker_name : String
  status_id : Nat
  status_name : String
  priority_id : Nat
  priority_name : String
  author_id : Nat
  author_name : String
  assigned_to_id : Option Nat
  assigned_to_name : Option String
  subject : String
  description : Option String
  created_on : Nat
  updated_on : Nat
  due_date : Option String
  done_percent : Option Nat  -- `done_ratio` column in the source
deriving DecidableEq

/-- A row of the `journals` table. -/
structure JournalRow where
  id : Nat
  issue_id : Nat
  user_id : Nat
  user_name : String
  notes : Option String
  created_on : Nat
deriving DecidableEq

/-- A row of the `journal_details` table; `id` is the AUTOINCREMENT key. -/
structure JournalDetailRow where
  id : Nat
  journal_id : Nat
  property : String
  name : String
  old_value : Option String
  new_value : Option String
deriving DecidableEq

/-- The cache database state: the four claim-relevant tables, the
`projects_last_synced` metadata key, and the AUTOINCREMENT counter for
`journal_details`. -/
structure DB where
  projects : List ProjectRow
  issues : List IssueRow
  journals : List JournalRow
  journal_details : List JournalDetailRow
  projects_last_synced : Option Nat
  next_detail_id : Nat
deriving DecidableEq

/-- Maximum `updated_on` over the cached issues of one project:
`SELECT MAX(updated_on) FROM issues WHERE project_id = ?` (`NULL` when the
project has no cached issues). -/
def maxUpdated (issues : List IssueRow) (pid : Nat) : Option Nat :=
  ((issues.filter (fun i => i.project_id = pid)).map (fun i => i.updated_on)).max?

/-- The `issues` row written for an `Issue` by both issue-insert paths
(`db.rs` lines 398-425 and 577-604). -/
def issueToRow (issue : Issue) : IssueRow where
  id := issue.id
  project_id := issue.project.id
  tracker_id := issue.tracker.id
  tracker_name := issue.tracker.name
  status_id := issue.status.id
  status_name := issue.status.name
  priority_id := issue.priority.id
  priority_name := issue.priority.name
  author_id := issue.author.id
  author_name := issue.author.name
  assigned_to_id := issue.assigned_to.map (fun a => a.id)
  assigned_to_name := issue.assigned_to.map (fun a => a.name)
  subject := issue.subject
  description := issue.description
  created_on := issue.created_on
  updated_on := issue.updated_on
  due_date := issue.due_date
  done_percent := issue.done_percent

/-- `INSERT OR REPLACE` into `issues`: the row with the conflicting primary
key (if any) is deleted and the new row inserted. -/
def upsertIssueRow (rows : List IssueRow) (r : IssueRow) : List IssueRow :=
  rows.filter (fun x => x.id ≠ r.id) ++ [r]

/-- `Database::insert_issues` (`db.rs` 394-459): upsert each row of the
batch, then for every distinct project id of the batch recompute
`last_issue_activity` as the max `updated_on` over the full cached issue
set (skipped when the `MAX` is `NULL`) and stamp `last_issues_sync := now`.
The two SQL `UPDATE` loops commute row-wise, so they are fused here; the
unspecified `HashSet` iteration order is immaterial for the same reason. -/
def insert_issues (db : DB) (batch : List Issue) (now : Nat) : DB :=
  let issues' := batch.foldl (fun rows i => upsertIssueRow rows (issueToRow i)) db.issues
  let pids : List Nat := (batch.map (fun i => i.project.id)).dedup
  let projects' := db.projects.map (fun p =>
    if p.id ∈ pids then
      match maxUpdated issues' p.id with
      | some m => { p with last_issue_activity := some m, last_issues_sync := some now }
      | none => { p with last_issues_sync := some now }
    else p)
  { db with issues := issues', projects := projects' }

/-- One iteration of the `Database::insert_projects` loop (`db.rs`
210-240): read the existing row's `last_issue_activity` /
`last_issues_sync` to preserve them, then `INSERT OR REPLACE` the row. -/
def projectUpsertStep (tx : List ProjectRow) (p : Project) : List ProjectRow :=
  let existing := tx.find? (fun r => r.id = p.id)
  let preserve_activity := existing.bind (fun r => r.last_issue_activity)
  let preserve_sync := existing.bind (fun r => r.last_issues_sync)
  tx.filter (fun r => r.id ≠ p.id) ++
    [{ id := p.id
       name := p.name
       identifier := p.identifier
       description := p.description
       status := p.status
       parent_id := p.parent.map (fun q => q.id)
       parent_name := p.parent.map (fun q => q.name)
       created_on := p.created_on
       updated_on := p.updated_on
       last_issue_activity := preserve_activity
       last_issues_sync := preserve_sync }]

/-- `Database::insert_projects` (`db.rs` 207-260): upsert every project of
the batch preserving its activity/sync stamps, record the
`projects_last_synced` metadata key, then unconditionally recompute
`last_issue_activity` for every cached project from its cached issues. -/
def insert_projects (db : DB) (ps : List Project) (now : Nat) : DB :=
  let projects₁ := ps.foldl projectUpsertStep db.projects
  let projects₂ := projects₁.map (fun r =>
    { r with last_issue_activity := maxUpdated db.issues r.id })
  { db with projects := projects₂, projects_last_synced := some now }

/-- `Database::update_project_last_activity` (`db.rs` 819-825): a direct
`UPDATE projects SET last_issue_activity = ?1 WHERE id = ?2`. -/
def update_project_last_activity (db : DB) (pid : Nat) (t : Nat) : DB :=
  { db with projects := db.projects.map (fun p =>
      if p.id = pid then { p with last_issue_activity := some t } else p) }

/-- `Database::clear_project_issues` (`db.rs` 370-392): delete the detail
rows of the journals of the project's issues, then those journals, then
the issues themselves. -/
def clear_project_issues (db : DB) (pid : Nat) : DB :=
  let doomedJournalIds :=
    (db.journals.filter (fun j =>
      (db.issues.filter (fun i => i.project_id = pid)).any
        (fun i => j.issue_id = i.id))).map (fun j => j.id)
  let details' := db.journal_details.filter (fun d => d.journal_id ∉ doomedJournalIds)
  let doomedIssueIds := (db.issues.filter (fun i => i.project_id = pid)).map (fun i => i.id)
  let journals' := db.journals.filter (fun j => j.issue_id ∉ doomedIssueIds)
  let issues' := db.issues.filter (fun i => i.project_id ≠ pid)
  { db with issues := issues', journals := journals', journal_details := details' }

/-- ASCII-only lower casing, as used by SQLite's default `LIKE`. -/
def charLower (c : Char) : Char :=
  if 'A' ≤ c ∧ c ≤ 'Z' then Char.ofNat (c.toNat + 32) else c

/-- Does the continuation match any suffix (including the empty one) of
the string?  Drives the `%` wildcard. -/
def suffixAny (m : List Char → Bool) : List Char → Bool
  | [] => m []
  | c :: t => m (c :: t) || suffixAny m t

/-- SQLite `LIKE` pattern matching (default behaviour): `%` matches any
sequence, `_` any single character, other characters compare with ASCII
case folded. -/
def likeMatch : List Char → List Char → Bool
  | [], s => s.isEmpty
  | p :: ps, s =>
    if p = '%' then suffixAny (likeMatch ps) s
    else
      match s with
      | [] => false
      | c :: t => (p = '_' || charLower p = charLower c) && likeMatch ps t

/-- The test `col LIKE '%' || f || '%'` built by both query paths from the
raw filter text `f` (`format!("%{}%", f)`). -/
def sqlLikeContains (f : String) (s : String) : Bool :=
  likeMatch ('%' :: f.toList ++ ['%']) s.toList

/-- The `WHERE` clause of `Database::get_projects` (`db.rs` 316):
`name LIKE ?1 OR identifier LIKE ?1 OR description LIKE ?1`; a `NULL`
description never matches. -/
def projectMatchesFilter (f : String) (r : ProjectRow) : Bool :=
  sqlLikeContains f r.name || sqlLikeContains f r.identifier ||
    (match r.description with
     | some d => sqlLikeContains f d
     | none => false)

/-- The sort key `COALESCE(last_issue_activity, updated_on, created_on,
'1970-01-01T00:00:00Z')` of `Database::get_projects` (`db.rs` 323). -/
def coalesceRecency (r : ProjectRow) : Nat :=
  match r.last_issue_activity, r.updated_on, r.created_on with
  | some t, _, _ => t
  | none, some t, _ => t
  | none, none, some t => t
  | none, none, none => 0

/-- Comparison used for the `ORDER BY ... DESC` of `get_projects`:
more recent (larger key) rows come first. -/
def projectRecencyGE (a b : ProjectRow) : Prop :=
  coalesceRecency b ≤ coalesceRecency a

instance : DecidableRel projectRecencyGE :=
  fun a b => Nat.decLe (coalesceRecency b) (coalesceRecency a)

/-- The `Project` value rebuilt from a `projects` row by `get_projects`
(`db.rs` 327-359). -/
def rowToProject (r : ProjectRow) : Project where
  id := r.id
  name := r.name
  identifier := r.identifier
  description := r.description
  status := r.status
  parent :=
    match r.parent_id, r.parent_name with
    | some i, some n => some ⟨i, n⟩
    | _, _ => none
  created_on := r.created_on
  updated_on := r.updated_on
  last_issue_activity := r.last_issue_activity
  last_issues_sync := r.last_issues_sync

/-- `Database::get_projects` (`db.rs` 306-367): filter (only when the
filter text is non-empty), order by recency descending, rebuild records. -/
def get_projects (db : DB) (filter : Option String) : List Project :=
  let rows :=
    match filter with
    | some f => if f.isEmpty then db.projects else db.projects.filter (projectMatchesFilter f)
    | none => db.projects
  (List.insertionSort projectRecencyGE rows).map rowToProject

/-- The five UI sort orders of the issue list (`app/state.rs` 42-48). -/
inductive IssueSortOrder where
  | UpdatedDesc
  | StatusAsc
  | StatusDesc
  | PriorityAsc
  | PriorityDesc
deriving DecidableEq

/-- Row comparison realising the `ORDER BY` clause picked by
`Database::get_issues` for each sort order (`db.rs` 499-505). -/
def issueOrderedBefore (o : IssueSortOrder) (a b : IssueRow) : Prop :=
  match o with
  | .UpdatedDesc => b.updated_on ≤ a.updated_on
  | .StatusAsc => a.status_name ≤ b.status_name
  | .StatusDesc => b.status_name ≤ a.status_name
  | .PriorityAsc => a.priority_id ≤ b.priority_id
  | .PriorityDesc => b.priority_id ≤ a.priority_id

instance (o : IssueSortOrder) : DecidableRel (issueOrderedBefore o) :=
  fun a b =>
    match o with
    | .UpdatedDesc => inferInstanceAs (Decidable (b.updated_on ≤ a.updated_on))
    | .StatusAsc => inferInstanceAs (Decidable (a.status_name ≤ b.status_name))
    | .StatusDesc => inferInstanceAs (Decidable (b.status_name ≤ a.status_name))
    | .PriorityAsc => inferInstanceAs (Decidable (a.priority_id ≤ b.priority_id))
    | .PriorityDesc => inferInstanceAs (Decidable (b.priority_id ≤ a.priority_id))

/-- The optional `WHERE` conjuncts of `Database::get_issues`
(`db.rs` 478-496): project match, assignee match, and the text filter over
`subject`, `description` and `CAST(id AS TEXT)` (skipped when empty). -/
def issueMatchesQuery (project_id : Option Nat) (filter : Option String)
    (assigned_to_id : Option Nat) (r : IssueRow) : Bool :=
  (match project_id with
   | some pid => r.project_id = pid
   | none => true) &&
  (match assigned_to_id with
   | some aid => r.assigned_to_id = some aid
   | none => true) &&
  (match filter with
   | some f =>
     if f.isEmpty then true
     else
       sqlLikeContains f r.subject ||
         (match r.description with
          | some d => sqlLikeContains f d
          | none => false) ||
         sqlLikeContains f (toString r.id)
   | none => true)

/-- The `Issue` value rebuilt from an `issues` row by `get_issues` /
`get_issue_with_journals` (`db.rs` 511-562): non-persisted fields come
back as `None` / empty, the project display name as `""`. -/
def rowToIssue (r : IssueRow) : Issue where
  id := r.id
  project := ⟨r.project_id, ""⟩
  tracker := ⟨r.tracker_id, r.tracker_name⟩
  status := ⟨r.status_id, r.status_name⟩
  priority := ⟨r.priority_id, r.priority_name⟩
  author := ⟨r.author_id, r.author_name⟩
  assigned_to :=
    match r.assigned_to_id, r.assigned_to_name with
    | some i, some n => some ⟨i, n⟩
    | _, _ => none
  parent := none
  category := none
  fixed_version := none
  subject := r.subject
  description := r.description
  start_date := none
  due_date := r.due_date
  done_percent := r.done_percent
  is_private := none
  estimated_hours := none
  total_estimated_hours := none
  spent_hours := none
  total_spent_hours := none
  created_on := r.created_on
  updated_on := r.updated_on
  closed_on := none
  journals := []
  custom_fields := []
  attachments := []

/-- `Database::get_issues` (`db.rs` 461-570): filter, sort per the chosen
order, rebuild records (journals left empty by this path). -/
def get_issues (db : DB) (project_id : Option Nat) (sort_order : IssueSortOrder)
    (filter : Option String) (assigned_to_id : Option Nat) : List Issue :=
  (List.insertionSort (issueOrderedBefore sort_order)
      (db.issues.filter (issueMatchesQuery project_id filter assigned_to_id))).map rowToIssue

/-- The `journals` row written for a `Journal` of issue `issue_id`
(`db.rs` 617-628); `private_notes` and nothing else of the journal is
dropped. -/
def journalToRow (issue_id : Nat) (j : Journal) : JournalRow where
  id := j.id
  issue_id := issue_id
  user_id := j.user.id
  user_name := j.user.name
  notes := j.notes
  created_on := j.created_on

/-- The `journal_details` rows for one journal's detail list, with
AUTOINCREMENT ids starting at `start` (`db.rs` 631-643). -/
def detailRowsFor (jid : Nat) (start : Nat) : List JournalDetail → List JournalDetailRow
  | [] => []
  | d :: ds =>
    { id := start, journal_id := jid, property := d.property, name := d.name,
      old_value := d.old_value, new_value := d.new_value } :: detailRowsFor jid (start + 1) ds

/-- All `journal_details` rows inserted for a journal list, threading the
AUTOINCREMENT counter through consecutive blocks. -/
def journalDetailBlocks (start : Nat) : List Journal → List JournalDetailRow
  | [] => []
  | j :: js => detailRowsFor j.id start j.details ++
      journalDetailBlocks (start + j.details.length) js

/-- Total number of detail rows inserted for a journal list. -/
def totalDetailCount (js : List Journal) : Nat :=
  (js.map (fun j => j.details.length)).sum

/-- Success condition of the plain `INSERT INTO journals` statements: the
incoming journal ids are pairwise distinct and none collides with a
surviving row's primary key (`journals.id` is `INTEGER PRIMARY KEY`). -/
def journalIdsFresh (survivors : List JournalRow) (js : List Journal) : Prop :=
  (js.map (fun j => j.id)).Nodup ∧ ∀ j ∈ js, j.id ∉ survivors.map (fun r => r.id)

instance (survivors : List JournalRow) (js : List Journal) :
    Decidable (journalIdsFresh survivors js) :=
  inferInstanceAs (Decidable (_ ∧ _))

/-- `Database::insert_issue_with_journals` (`db.rs` 573-655): inside one
transaction, upsert the issue row, delete the issue's old detail and
journal rows, re-insert the incoming journal set with its details, and
stamp the project's `last_issue_activity` to the issue's own `updated_on`
and `last_issues_sync` to now.  A journal primary-key conflict aborts the
transaction, leaving the database unchanged. -/
def insert_issue_with_journals (db : DB) (issue : Issue) (now : Nat) : Except String DB :=
  let issues' := upsertIssueRow db.issues (issueToRow issue)
  let oldJournalIds :=
    (db.journals.filter (fun j => j.issue_id = issue.id)).map (fun j => j.id)
  let details₁ := db.journal_details.filter (fun d => d.journal_id ∉ oldJournalIds)
  let journals₁ := db.journals.filter (fun j => j.issue_id ≠ issue.id)
  if journalIdsFresh journals₁ issue.journals then
    let journals₂ := journals₁ ++ issue.journals.map (journalToRow issue.id)
    let details₂ := details₁ ++ journalDetailBlocks db.next_detail_id issue.journals
    let projects' := db.projects.map (fun p =>
      if p.id = issue.project.id then
        { p with last_issue_activity := some issue.updated_on, last_issues_sync := some now }
      else p)
    Except.ok { db with
      issues := issues',
      journals := journals₂,
      journal_details := details₂,
      projects := projects',
      next_detail_id := db.next_detail_id + totalDetailCount issue.journals }
  else Except.error "UNIQUE constraint failed: journals.id"

/-- Ascending creation-time comparison used by the `ORDER BY created_on
ASC` of the journal query (`db.rs` 728). -/
def journalRowCreatedLE (a b : JournalRow) : Prop :=
  a.created_on ≤ b.created_on

instance : DecidableRel journalRowCreatedLE :=
  fun a b => Nat.decLe a.created_on b.created_on

/-- Same comparison on in-memory journals. -/
def journalCreatedLE (a b : Journal) : Prop :=
  a.created_on ≤ b.created_on

instance : DecidableRel journalCreatedLE :=
  fun a b => Nat.decLe a.created_on b.created_on

/-- The `Journal` rebuilt from a `journals` row plus the detail table
(`db.rs` 731-768): details are the table rows with this journal id, in
table order (the detail query has no `ORDER BY`); `private_notes` is not
stored and comes back `false`. -/
def rowToJournal (details : List JournalDetailRow) (jr : JournalRow) : Journal where
  id := jr.id
  user := ⟨jr.user_id, jr.user_name⟩
  notes := jr.notes
  created_on := jr.created_on
  private_notes := false
  details :=
    (details.filter (fun d => d.journal_id = jr.id)).map
      (fun d => { property := d.property, name := d.name,
                  old_value := d.old_value, new_value := d.new_value })

/-- `Database::get_issue_with_journals` (`db.rs` 657-777): point lookup of
the issue row, journals of the issue ordered by creation time ascending,
each with its detail rows. -/
def get_issue_with_journals (db : DB) (issue_id : Nat) : Option Issue :=
  match db.issues.find? (fun r => r.id = issue_id) with
  | none => none
  | some r =>
    let jrows := List.insertionSort journalRowCreatedLE
      (db.journals.filter (fun j => j.issue_id = issue_id))
    some { rowToIssue r with journals := jrows.map (rowToJournal db.journal_details) }

/-- The typed paginated response of the remote client's issue query
(`redmine::IssuesResponse`): the page plus an optional reported total. -/
structure IssuesResponse where
  issues : List Issue
  total_count : Option Nat
deriving DecidableEq

/-- The argument tuple `App::load_issues_next_page` passes to
`client.get_issues` (`data_loader.rs` 63). -/
structure FetchArgs where
  project_id : Option Nat
  include_param : Option String
  limit : Nat
  offset : Nat
  exclude_subprojects : Bool
deriving DecidableEq

/-- The slice of `App` state driving the incremental issue sync
(`app/state.rs` 125-128 plus the fields the loader touches).  UI-only
state (filtered slices, cursors) is outside every claim and omitted. -/
structure AppState where
  db : DB
  selected_project : Option Project
  exclude_subprojects : Bool
  issues_loading_in_progress : Bool
  issues_loaded_count : Nat
  issues_total_count : Nat
  issues_temp_buffer : List Issue
  loading : Bool
  status_message : Option String
  error_message : Option String
deriving DecidableEq

/-- `App::load_issues` (`data_loader.rs` 40-51): the `begin()` of the sync
state machine — a no-op when already in progress, otherwise resets the
buffer and counters. -/
def load_issues (app : AppState) : AppState :=
  if app.issues_loading_in_progress then app
  else
    { app with
      issues_loading_in_progress := true,
      issues_loaded_count := 0,
      issues_total_count := 0,
      issues_temp_buffer := [],
      loading := true }

/-- `App::load_issues_next_page` (`data_loader.rs` 54-108).  The remote
client is an oracle `fetch` from the exact argument tuple the code builds
to a typed response or error; `none` models `self.client == None`.  The
returned `Bool` is the `Ok(true/false)` of the source ("done" vs "more
pages"); `now` stamps the `Utc::now()` of the flush.  `apply_filters`
only rebuilds UI slices and is not modelled. -/
def load_issues_next_page (app : AppState)
    (client : Option (FetchArgs → Except String IssuesResponse)) (now : Nat) :
    AppState × Bool :=
  match client with
  | none => (app, true)
  | some fetch =>
    match app.selected_project with
    | none => (app, true)
    | some project =>
      match fetch ⟨some project.id, some "*", 100, app.issues_loaded_count,
                   app.exclude_subprojects⟩ with
      | Except.ok response =>
        let total_count := response.total_count.getD 0
        let received_count := response.issues.length
        let buffer' := app.issues_temp_buffer ++ response.issues
        let app₁ : AppState :=
          { app with
            issues_temp_buffer := buffer',
            issues_loaded_count := buffer'.length,
            issues_total_count := total_count,
            status_message := some ("Loading issues... " ++ toString buffer'.length ++ "/"
              ++ toString total_count) }
        if received_count < 100 ∨ buffer'.length ≥ total_count then
          ({ app₁ with
             db := insert_issues app₁.db buffer' now,
             status_message := some ("Loaded " ++ toString buffer'.length ++ " issues from "
               ++ project.name),
             issues_loading_in_progress := false,
             issues_temp_buffer := [],
             loading := false }, true)
        else (app₁, false)
      | Except.error e =>
        ({ app with
           error_message := some ("Failed to load issues: " ++ e),
           issues_loading_in_progress := false,
           issues_temp_buffer := [],
           loading := false }, true)

/-- The empty cache, as built by `init_schema` on a fresh file. -/
def dbEmpty : DB where
  projects := []
  issues := []
  journals := []
  journal_details := []
  projects_last_synced := none
  next_detail_id := 1

/-- A concrete project used by witnesses. -/
def demoProject : Project where
  id := 1
  name := "Alpha Project"
  identifier := "alpha"
  description := some "Test project"
  status := some 1
  parent := none
  created_on := some 10
  updated_on := some 20
  last_issue_activity := none
  last_issues_sync := none

/-- A concrete issue builder used by witnesses: id, project id, priority
id and update timestamp vary, the rest is fixed. -/
def demoIssue (i pid prio upd : Nat) : Issue where
  id := i
  project := ⟨pid, "Alpha Project"⟩
  tracker := ⟨1, "Bug"⟩
  status := ⟨1, "New"⟩
  priority := ⟨prio, "Normal"⟩
  author := ⟨1, "Test User"⟩
  assigned_to := none
  parent := none
  category := none
  fixed_version := none
  subject := "First Issue"
  description := some "Test description"
  start_date := none
  due_date := none
  done_percent := some 0
  is_private := none
  estimated_hours := none
  total_estimated_hours := none
  spent_hours := none
  total_spent_hours := none
  created_on := 5
  updated_on := upd
  closed_on := none
  journals := []
  custom_fields := []
  attachments := []

/-- An app state with a selected project and a sync in flight. -/
def demoApp : AppState where
  db := dbEmpty
  selected_project := some demoProject
  exclude_subprojects := false
  issues_loading_in_progress := true
  issues_loaded_count := 0
  issues_total_count := 0
  issues_temp_buffer := []
  loading := true
  status_message := none
  error_message := none

/-- C4: if the remote fetch of a page fails, nothing is flushed to the
cache (the database is untouched, so the cached issue rows are exactly
what they were), the accumulated buffer is discarded, the controller
returns to Idle (`issues_loading_in_progress = false`), a message naming
the failed operation is surfaced, and the call reports the sync as
stopped. -/
theorem c4_fetch_error_aborts_sync (app : AppState)
    (fetch : FetchArgs → Except String IssuesResponse) (project : Project)
    (e : String) (now : Nat)
    (hp : app.selected_project = some project)
    (hf : fetch ⟨some project.id, some "*", 100, app.issues_loaded_count,
            app.exclude_subprojects⟩ = Except.error e) :
    (load_issues_next_page app (some fetch) now).1.db = app.db ∧
    (load_issues_next_page app (some fetch) now).1.issues_temp_buffer = [] ∧
    (load_issues_next_page app (some fetch) now).1.issues_loading_in_progress = false ∧
    (load_issues_next_page app (some fetch) now).1.error_message =
      some ("Failed to load issues: " ++ e) ∧
    (load_issues_next_page app (some fetch) now).2 = true := by
  simp [load_issues_next_page, hp, hf]

/-- A remote client whose every fetch fails. -/
def c4Client : FetchArgs → Except String IssuesResponse :=
  fun _ => Except.error "network unreachable"

theorem c4_witness :
    (load_issues_next_page demoApp (some c4Client) 7).1.db = demoApp.db ∧
    (load_issues_next_page demoApp (some c4Client) 7).1.issues_temp_buffer = [] ∧
    (load_issues_next_page demoApp (some c4Client) 7).1.issues_loading_in_progress = false ∧
    (load_issues_next_page demoApp (some c4Client) 7).1.error_message =
      some ("Failed to load issues: " ++ "network unreachable") ∧
    (load_issues_next_page demoApp (some c4Client) 7).2 = true :=
  c4_fetch_error_aborts_sync demoApp c4Client demoProject "network unreachable" 7 rfl rfl

/-- C5: one call while a sync is in flight fetches exactly one page of
size 100 at offset equal to the current buffer length (the offset the
code passes is `issues_loaded_count`, which the loader maintains equal to
the buffer length); on success the page is appended to the buffer, the
call reports completion exactly when the page returned fewer than 100
rows or the buffered count has reached the reported total, on completion
the whole buffer is flushed through a single `insert_issues` call, the
buffer is cleared and the controller returns to Idle, and otherwise the
buffer keeps the appended page, the database is untouched and the sync
stays in progress. -/
theorem c5_advance_one_page (app : AppState)
    (fetch : FetchArgs → Except String IssuesResponse) (project : Project)
    (resp : IssuesResponse) (now : Nat)
    (hp : app.selected_project = some project)
    (hcount : app.issues_loaded_count = app.issues_temp_buffer.length)
    (hf : fetch ⟨some project.id, some "*", 100, app.issues_temp_buffer.length,
            app.exclude_subprojects⟩ = Except.ok resp) :
    ((load_issues_next_page app (some fetch) now).2 = true ↔
      (resp.issues.length < 100 ∨
        (app.issues_temp_buffer ++ resp.issues).length ≥ resp.total_count.getD 0)) ∧
    ((resp.issues.length < 100 ∨
        (app.issues_temp_buffer ++ resp.issues).length ≥ resp.total_count.getD 0) →
      (load_issues_next_page app (some fetch) now).1.db =
        insert_issues app.db (app.issues_temp_buffer ++ resp.issues) now ∧
      (load_issues_next_page app (some fetch) now).1.issues_temp_buffer = [] ∧
      (load_issues_next_page app (some fetch) now).1.issues_loading_in_progress = false) ∧
    (¬ (resp.issues.length < 100 ∨
        (app.issues_temp_buffer ++ resp.issues).length ≥ resp.total_count.getD 0) →
      (load_issues_next_page app (some fetch) now).1.db = app.db ∧
      (load_issues_next_page app (some fetch) now).1.issues_temp_buffer =
        app.issues_temp_buffer ++ resp.issues ∧
      (load_issues_next_page app (some fetch) now).1.issues_loaded_count =
        (app.issues_temp_buffer ++ resp.issues).length ∧
      (load_issues_next_page app (some fetch) now).1.issues_loading_in_progress =
        app.issues_loading_in_progress ∧
      (load_issues_next_page app (some fetch) now).2 = false) := by
  have hf' : fetch ⟨some project.id, some "*", 100, app.issues_loaded_count,
      app.exclude_subprojects⟩ = Except.ok resp := by
    rw [hcount]; exact hf
  by_cases hc : resp.issues.length < 100 ∨
      (app.issues_temp_buffer ++ resp.issues).length ≥ resp.total_count.getD 0
  · refine ⟨?_, fun _ => ?_, fun h => absurd hc h⟩
    · simp only [load_issues_next_page, hp, hf', if_pos hc]
      simpa using hc
    · simp only [load_issues_next_page, hp, hf', if_pos hc]
      simp
  · refine ⟨?_, fun h => absurd h hc, fun _ => ?_⟩
    · simp only [load_issues_next_page, hp, hf', if_neg hc]
      simpa using hc
    · simp only [load_issues_next_page, hp, hf', if_neg hc]
      simp

/-- A remote client answering one short page with a reported total. -/
def c5Client : FetchArgs → Except String IssuesResponse :=
  fun _ => Except.ok ⟨[demoIssue 10 1 2 30], some 1⟩

theorem c5_witness :
    (load_issues_next_page demoApp (some c5Client) 7).2 = true ∧
    (load_issues_next_page demoApp (some c5Client) 7).1.db =
      insert_issues demoApp.db (demoApp.issues_temp_buffer ++ [demoIssue 10 1 2 30]) 7 ∧
    (load_issues_next_page demoApp (some c5Client) 7).1.issues_temp_buffer = [] ∧
    (load_issues_next_page demoApp (some c5Client) 7).1.issues_loading_in_progress = false := by
  have h := c5_advance_one_page demoApp c5Client demoProject ⟨[demoIssue 10 1 2 30], some 1⟩ 7
    rfl rfl rfl
  have hc : ([demoIssue 10 1 2 30] : List Issue).length < 100 ∨
      (demoApp.issues_temp_buffer ++ [demoIssue 10 1 2 30]).length ≥
        (some 1 : Option Nat).getD 0 := Or.inl (by decide)
  exact ⟨h.1.mpr hc, (h.2.1 hc).1, (h.2.1 hc).2.1, (h.2.1 hc).2.2⟩

/-- C10: when the remote response omits `total_count` the loader treats
the total as 0 (`unwrap_or(0)`), so the completion predicate holds after
the first page regardless of the page size: the call flushes exactly the
buffered page through `insert_issues`, clears the buffer and reports the
sync completed. -/
theorem c10_missing_total_completes_first_page (app : AppState)
    (fetch : FetchArgs → Except String IssuesResponse) (project : Project)
    (resp : IssuesResponse) (now : Nat)
    (hp : app.selected_project = some project)
    (hf : fetch ⟨some project.id, some "*", 100, app.issues_loaded_count,
            app.exclude_subprojects⟩ = Except.ok resp)
    (ht : resp.total_count = none) :
    (load_issues_next_page app (some fetch) now).2 = true ∧
    (load_issues_next_page app (some fetch) now).1.db =
      insert_issues app.db (app.issues_temp_buffer ++ resp.issues) now ∧
    (load_issues_next_page app (some fetch) now).1.issues_temp_buffer = [] ∧
    (load_issues_next_page app (some fetch) now).1.issues_loading_in_progress = false := by
  have hc : resp.issues.length < 100 ∨
      (app.issues_temp_buffer ++ resp.issues).length ≥ resp.total_count.getD 0 := by
    right; rw [ht]; exact Nat.zero_le _
  simp only [load_issues_next_page, hp, hf, if_pos hc]
  simp

/-- A remote client answering a full page of 100 rows with no reported
total: more pages could exist, yet the sync will stop. -/
def c10Client : FetchArgs → Except String IssuesResponse :=
  fun _ => Except.ok ⟨List.replicate 100 (demoIssue 10 1 2 30), none⟩

theorem c10_witness :
    (load_issues_next_page demoApp (some c10Client) 7).2 = true ∧
    (load_issues_next_page demoApp (some c10Client) 7).1.db =
      insert_issues demoApp.db
        (demoApp.issues_temp_buffer ++ List.replicate 100 (demoIssue 10 1 2 30)) 7 ∧
    (load_issues_next_page demoApp (some c10Client) 7).1.issues_temp_buffer = [] ∧
    (load_issues_next_page demoApp (some c10Client) 7).1.issues_loading_in_progress = false :=
  c10_missing_total_completes_first_page demoApp c10Client demoProject
    ⟨List.replicate 100 (demoIssue 10 1 2 30), none⟩ 7 rfl rfl rfl

theorem find?_filter_id_self (l : List ProjectRow) (q : Nat) :
    (l.filter (fun r => r.id ≠ q)).find? (fun r => r.id = q) = none := by
  rw [List.find?_filter]
  apply List.find?_eq_none.mpr
  intro x _
  by_cases h : x.id = q <;> simp [h]

theorem find?_filter_id_of_ne (l : List ProjectRow) (q pid : Nat) (hqp : q ≠ pid) :
    (l.filter (fun r => r.id ≠ q)).find? (fun r => r.id = pid) =
      l.find? (fun r => r.id = pid) := by
  rw [List.find?_filter]
  have hfun : (fun (a : ProjectRow) =>
      decide (decide (a.id ≠ q) = true ∧ decide (a.id = pid) = true)) =
      (fun (a : ProjectRow) => decide (a.id = pid)) := by
    funext a
    by_cases h : a.id = pid
    · have hne : ¬pid = q := fun hc => hqp hc.symm
      simp [h, hne]
    · simp [h]
  rw [hfun]

theorem projectUpsertStep_sync (l : List ProjectRow) (p : Project) (pid : Nat) :
    ((projectUpsertStep l p).find? (fun r => r.id = pid)).map (fun r => r.last_issues_sync) =
      if p.id = pid then
        some ((l.find? (fun r => r.id = pid)).bind (fun r => r.last_issues_sync))
      else (l.find? (fun r => r.id = pid)).map (fun r => r.last_issues_sync) := by
  unfold projectUpsertStep
  by_cases h : p.id = pid
  · subst h
    rw [List.find?_append, find?_filter_id_self]
    simp [List.find?_cons]
  · rw [List.find?_append, find?_filter_id_of_ne l p.id pid h]
    cases hfind : l.find? (fun r => r.id = pid) with
    | none => simp [List.find?_cons, h]
    | some r => simp [h]

theorem projectFold_sync (ps : List Project) (l : List ProjectRow) (pid : Nat)
    (s : Option Nat)
    (h : (l.find? (fun r => r.id = pid)).map (fun r => r.last_issues_sync) = some s) :
    ((ps.foldl projectUpsertStep l).find? (fun r => r.id = pid)).map
        (fun r => r.last_issues_sync) = some s := by
  induction ps generalizing l with
  | nil => exact h
  | cons p ps ih =>
    rw [List.foldl_cons]
    apply ih
    rw [projectUpsertStep_sync]
    by_cases hp : p.id = pid
    · rw [if_pos hp]
      cases hfind : l.find? (fun r => r.id = pid) with
      | none => rw [hfind] at h; simp at h
      | some r =>
        rw [hfind] at h
        simp only [Option.map_some'] at h
        simp [h]
    · rw [if_neg hp]; exact h

theorem find?_map_recompute (l : List ProjectRow) (g : Nat → Option Nat) (pid : Nat) :
    ((l.map (fun r => { r with last_issue_activity := g r.id })).find?
        (fun r => r.id = pid)) =
      (l.find? (fun r => r.id = pid)).map
        (fun r => { r with last_issue_activity := g r.id }) := by
  induction l with
  | nil => rfl
  | cons a t ih => by_cases h : a.id = pid <;> simp [List.find?_cons, h, ih]

/-- C1 (corrected): `insert_projects` with any batch leaves a cached
project's `last_issues_sync` unchanged at `S1`, but its
`last_issue_activity` ends as the recomputed `MAX(updated_on)` over the
project's cached issues — equal to `T1` exactly when `T1` was that
maximum, and nulled when the project has no cached issues. -/
theorem c1_upsert_projects_sync_preserved_activity_recomputed
    (db : DB) (ps : List Project) (now pid : Nat) (r : ProjectRow)
    (hr : db.projects.find? (fun x => x.id = pid) = some r) :
    ((insert_projects db ps now).projects.find? (fun x => x.id = pid)).map
        (fun x => (x.last_issue_activity, x.last_issues_sync)) =
      some (maxUpdated db.issues pid, r.last_issues_sync) := by
  have h0 : (db.projects.find? (fun x => x.id = pid)).map
      (fun x => x.last_issues_sync) = some r.last_issues_sync := by
    rw [hr]; rfl
  have h1 := projectFold_sync ps db.projects pid r.last_issues_sync h0
  simp only [insert_projects]
  rw [find?_map_recompute]
  cases hfind : (ps.foldl projectUpsertStep db.projects).find? (fun x => x.id = pid) with
  | none => rw [hfind] at h1; simp at h1
  | some row =>
    rw [hfind] at h1
    simp only [Option.map_some'] at h1 ⊢
    have hid : row.id = pid := by
      have := List.find?_some hfind
      simpa using this
    rw [hid, Option.some.inj h1]

/-- Concrete state for the C1 witness: one cached project, no issues. -/
def c1Db : DB := insert_projects dbEmpty [demoProject] 3

/-- The row `c1Db` holds for project 1. -/
def c1Row : ProjectRow where
  id := 1
  name := "Alpha Project"
  identifier := "alpha"
  description := some "Test project"
  status := some 1
  parent_id := none
  parent_name := none
  created_on := some 10
  updated_on := some 20
  last_issue_activity := none
  last_issues_sync := none

theorem c1_witness :
    ((insert_projects c1Db [demoProject] 9).projects.find? (fun x => x.id = 1)).map
        (fun x => (x.last_issue_activity, x.last_issues_sync)) =
      some (maxUpdated c1Db.issues 1, c1Row.last_issues_sync) :=
  c1_upsert_projects_sync_preserved_activity_recomputed c1Db [demoProject] 9 1 c1Row
    (by decide)

theorem c1_counterexample :
    (((update_project_last_activity c1Db 1 5).projects.find? (fun x => x.id = 1)).map
        (fun x => x.last_issue_activity) = some (some 5)) ∧
    (((insert_projects (update_project_last_activity c1Db 1 5) [demoProject] 9).projects.find?
        (fun x => x.id = 1)).map (fun x => x.last_issue_activity) = some none) := by
  constructor
  · decide
  · decide

/-- The spec's activity invariant: every cached project's
`last_issue_activity` is the maximum `updated_on` over its cached issues,
null when it has none. -/
def activityInvariant (db : DB) : Prop :=
  ∀ r ∈ db.projects, r.last_issue_activity = maxUpdated db.issues r.id

instance (db : DB) : Decidable (activityInvariant db) :=
  inferInstanceAs (Decidable (∀ r ∈ db.projects,
    r.last_issue_activity = maxUpdated db.issues r.id))

theorem mem_upsertIssueRow_self (rows : List IssueRow) (r : IssueRow) :
    r ∈ upsertIssueRow rows r :=
  List.mem_append_right _ (List.mem_singleton.mpr rfl)

theorem mem_upsertIssueRow_of_ne (rows : List IssueRow) (r x : IssueRow)
    (hx : x ∈ rows) (hne : x.id ≠ r.id) : x ∈ upsertIssueRow rows r :=
  List.mem_append_left _ (List.mem_filter.mpr ⟨hx, by simpa using hne⟩)

theorem mem_issueFold_of_not_mem (js : List Issue) (rows : List IssueRow) (x : IssueRow)
    (hx : x ∈ rows) (hni : x.id ∉ js.map (fun j => j.id)) :
    x ∈ js.foldl (fun rs j => upsertIssueRow rs (issueToRow j)) rows := by
  induction js generalizing rows with
  | nil => exact hx
  | cons j t ih =>
    rw [List.foldl_cons]
    have hmap : x.id ∉ j.id :: t.map (fun j => j.id) := by simpa using hni
    apply ih
    · exact mem_upsertIssueRow_of_ne _ _ _ hx
        (fun hc => hmap (List.mem_cons.mpr (Or.inl hc)))
    · exact fun hc => hmap (List.mem_cons.mpr (Or.inr hc))

theorem mem_issueFold_self (js : List Issue) (rows : List IssueRow)
    (hnd : (js.map (fun j => j.id)).Nodup) (i : Issue) (hi : i ∈ js) :
    issueToRow i ∈ js.foldl (fun rs j => upsertIssueRow rs (issueToRow j)) rows := by
  induction js generalizing rows with
  | nil => cases hi
  | cons j t ih =>
    rw [List.foldl_cons]
    have hnd' : (j.id :: t.map (fun j => j.id)).Nodup := by simpa using hnd
    rcases List.mem_cons.mp hi with h | h
    · subst h
      apply mem_issueFold_of_not_mem
      · exact mem_upsertIssueRow_self rows (issueToRow i)
      · exact (List.nodup_cons.mp hnd').1
    · exact ih _ (List.nodup_cons.mp hnd').2 h

/-- C2 (corrected): the activity invariant is re-established for every
cached project by `upsert_projects` (its final unconditional recompute),
and by `upsert_issues` for every project touched by a batch with distinct
issue ids; it is *not* maintained by `clear_project_issues` (which never
touches `projects`), by `update_project_last_activity` (an unchecked
direct setter), or by `upsert_issue_with_journals` (which stamps the
inserted issue's own `updated_on`). -/
theorem c2_activity_recompute_amended :
    (∀ (db : DB) (ps : List Project) (now : Nat),
      activityInvariant (insert_projects db ps now)) ∧
    (∀ (db : DB) (batch : List Issue) (now : Nat),
      (batch.map (fun i => i.id)).Nodup →
      ∀ r ∈ (insert_issues db batch now).projects,
        r.id ∈ batch.map (fun i => i.project.id) →
        r.last_issue_activity = maxUpdated (insert_issues db batch now).issues r.id) := by
  constructor
  · intro db ps now r hr
    have hr' : r ∈ (ps.foldl projectUpsertStep db.projects).map
        (fun x => { x with last_issue_activity := maxUpdated db.issues x.id }) := hr
    rcases List.mem_map.mp hr' with ⟨x, _, rfl⟩
    rfl
  · intro db batch now hnd r hr hmem
    have hr' : r ∈ db.projects.map (fun p =>
        if p.id ∈ (batch.map (fun i => i.project.id)).dedup then
          match maxUpdated (batch.foldl (fun rows i => upsertIssueRow rows (issueToRow i))
              db.issues) p.id with
          | some m => { p with last_issue_activity := some m, last_issues_sync := some now }
          | none => { p with last_issues_sync := some now }
        else p) := hr
    rcases List.mem_map.mp hr' with ⟨p₀, _, rfl⟩
    by_cases hin : p₀.id ∈ (batch.map (fun i => i.project.id)).dedup
    · rw [if_pos hin]
      cases hmax : maxUpdated (batch.foldl
          (fun rows i => upsertIssueRow rows (issueToRow i)) db.issues) p₀.id with
      | none =>
        exfalso
        rcases List.mem_map.mp (List.mem_dedup.mp hin) with ⟨i, hi, hip⟩
        have hrow := mem_issueFold_self batch db.issues hnd i hi
        have h1 : ((batch.foldl (fun rows i => upsertIssueRow rows (issueToRow i))
            db.issues).filter (fun x => x.project_id = p₀.id)) = [] := by
          have h2 := hmax
          unfold maxUpdated at h2
          exact List.map_eq_nil_iff.mp (List.max?_eq_none_iff.mp h2)
        have h3 : issueToRow i ∈ ((batch.foldl
            (fun rows i => upsertIssueRow rows (issueToRow i))
            db.issues).filter (fun x => x.project_id = p₀.id)) :=
          List.mem_filter.mpr ⟨hrow, by simpa [issueToRow] using hip⟩
        rw [h1] at h3
        cases h3
      | some m =>
        exact hmax.symm
    · rw [if_neg hin] at hmem ⊢
      exact absurd (List.mem_dedup.mpr hmem) hin

/-- Cache state with one project and one cached issue (priority 2,
updated at 30). -/
def c2Db : DB := insert_issues c1Db [demoIssue 10 1 2 30] 4

theorem c2_counterexample : ¬ activityInvariant (clear_project_issues c2Db 1) := by
  decide

/-- The projects row of `c2Db`. -/
def c2Row : ProjectRow :=
  { c1Row with last_issue_activity := some 30, last_issues_sync := some 4 }

theorem c2_witness :
    activityInvariant c1Db ∧
    c2Row.last_issue_activity = maxUpdated c2Db.issues c2Row.id :=
  ⟨c2_activity_recompute_amended.1 dbEmpty [demoProject] 3,
   c2_activity_recompute_amended.2 c1Db [demoIssue 10 1 2 30] 4 (by decide) c2Row
     (by decide) (by decide)⟩

/-- Journal ids of the journals attached (through their issue) to project
`pid`: the subquery of the first `DELETE` of `clear_project_issues`. -/
def journalIdsOfProject (db : DB) (pid : Nat) : List Nat :=
  (db.journals.filter (fun j =>
    (db.issues.filter (fun i => i.project_id = pid)).any
      (fun i => j.issue_id = i.id))).map (fun j => j.id)

/-- Issue ids of project `pid`: the subquery of the second `DELETE`. -/
def issueIdsOfProject (db : DB) (pid : Nat) : List Nat :=
  (db.issues.filter (fun i => i.project_id = pid)).map (fun i => i.id)

theorem filter_contra_eq_nil {α : Type} (l : List α) (p : α → Bool) :
    (l.filter p).filter (fun a => !p a) = [] := by
  rw [List.filter_filter]
  apply List.filter_eq_nil_iff.mpr
  intro a _
  by_cases h : p a <;> simp [h]

/-- C9: after `clear_project_issues pid` there are no issue rows of the
project, no journal rows keyed to the project's issues, and no detail
rows keyed to the project's journals; and (given primary-key uniqueness
of issue and journal ids) every issue of another project, every journal
of another project's issue, and every detail of such a journal survives
untouched. -/
theorem c9_clear_cascades_and_preserves_others (db : DB) (pid : Nat)
    (hIss : (db.issues.map (fun i => i.id)).Nodup)
    (hJou : (db.journals.map (fun j => j.id)).Nodup) :
    ((clear_project_issues db pid).issues.filter (fun i => i.project_id = pid) = []) ∧
    ((clear_project_issues db pid).journals.filter
        (fun j => j.issue_id ∈ issueIdsOfProject db pid) = []) ∧
    ((clear_project_issues db pid).journal_details.filter
        (fun d => d.journal_id ∈ journalIdsOfProject db pid) = []) ∧
    (∀ i ∈ db.issues, i.project_id ≠ pid → i ∈ (clear_project_issues db pid).issues) ∧
    (∀ j ∈ db.journals, ∀ i ∈ db.issues, j.issue_id = i.id → i.project_id ≠ pid →
      j ∈ (clear_project_issues db pid).journals) ∧
    (∀ d ∈ db.journal_details, ∀ j ∈ db.journals, d.journal_id = j.id →
      ∀ i ∈ db.issues, j.issue_id = i.id → i.project_id ≠ pid →
      d ∈ (clear_project_issues db pid).journal_details) := by
  refine ⟨?_, ?_, ?_, ?_, ?_, ?_⟩
  · apply List.filter_eq_nil_iff.mpr
    intro i hi
    have h2 := (List.mem_filter.mp hi).2
    simp only [decide_eq_true_eq] at h2 ⊢
    exact h2
  · apply List.filter_eq_nil_iff.mpr
    intro j hj
    have h2 := (List.mem_filter.mp hj).2
    simp only [decide_eq_true_eq] at h2 ⊢
    exact fun hc => h2 hc
  · apply List.filter_eq_nil_iff.mpr
    intro d hd
    have h2 := (List.mem_filter.mp hd).2
    simp only [decide_eq_true_eq] at h2 ⊢
    exact fun hc => h2 hc
  · intro i hi hne
    exact List.mem_filter.mpr ⟨hi, by simpa using hne⟩
  · intro j hj i hi hji hne
    apply List.mem_filter.mpr
    refine ⟨hj, ?_⟩
    simp only [decide_eq_true_eq]
    show ¬j.issue_id ∈ (db.issues.filter (fun i => i.project_id = pid)).map (fun i => i.id)
    intro hc
    rcases List.mem_map.mp hc with ⟨i', hi', hid⟩
    have hi'mem := (List.mem_filter.mp hi').1
    have : i' = i := List.inj_on_of_nodup_map hIss hi'mem hi (by rw [hid, hji])
    have hpid := (List.mem_filter.mp hi').2
    rw [this] at hpid
    exact hne (by simpa using hpid)
  · intro d hd j hj hdj i hi hji hne
    apply List.mem_filter.mpr
    refine ⟨hd, ?_⟩
    simp only [decide_eq_true_eq]
    show ¬d.journal_id ∈ (db.journals.filter (fun j' =>
      (db.issues.filter (fun i' => i'.project_id = pid)).any
        (fun i' => j'.issue_id = i'.id))).map (fun j' => j'.id)
    intro hc
    rcases List.mem_map.mp hc with ⟨j', hj', hjid⟩
    have hj'mem := (List.mem_filter.mp hj').1
    have hjj : j' = j := List.inj_on_of_nodup_map hJou hj'mem hj (by rw [hjid, hdj])
    have hany := (List.mem_filter.mp hj').2
    rw [hjj] at hany
    rcases List.any_eq_true.mp hany with ⟨i', hi'f, hieq⟩
    have hi'mem := (List.mem_filter.mp hi'f).1
    have hii : i' = i := by
      apply List.inj_on_of_nodup_map hIss hi'mem hi
      have : j.issue_id = i'.id := by simpa using hieq
      rw [← this, hji]
    have hpid := (List.mem_filter.mp hi'f).2
    rw [hii] at hpid
    exact hne (by simpa using hpid)

/-- A cache with two projects' worth of issues, journals and details. -/
def c9Db : DB where
  projects := []
  issues := [issueToRow (demoIssue 10 1 2 30), issueToRow (demoIssue 20 2 2 40)]
  journals := [⟨100, 10, 1, "Test User", some "note a", 6⟩,
               ⟨200, 20, 1, "Test User", some "note b", 7⟩]
  journal_details := [⟨1, 100, "attr", "status_id", some "1", some "2"⟩,
                      ⟨2, 200, "attr", "status_id", some "2", some "3"⟩]
  projects_last_synced := none
  next_detail_id := 3

theorem c9_witness :
    ((clear_project_issues c9Db 1).issues.filter (fun i => i.project_id = 1) = []) ∧
    ((clear_project_issues c9Db 1).journals.filter
        (fun j => j.issue_id ∈ issueIdsOfProject c9Db 1) = []) ∧
    ((clear_project_issues c9Db 1).journal_details.filter
        (fun d => d.journal_id ∈ journalIdsOfProject c9Db 1) = []) ∧
    issueToRow (demoIssue 20 2 2 40) ∈ (clear_project_issues c9Db 1).issues ∧
    (⟨200, 20, 1, "Test User", some "note b", 7⟩ : JournalRow) ∈
      (clear_project_issues c9Db 1).journals ∧
    (⟨2, 200, "attr", "status_id", some "2", some "3"⟩ : JournalDetailRow) ∈
      (clear_project_issues c9Db 1).journal_details := by
  have h := c9_clear_cascades_and_preserves_others c9Db 1 (by decide) (by decide)
  refine ⟨h.1, h.2.1, h.2.2.1, ?_, ?_, ?_⟩
  · exact h.2.2.2.1 (issueToRow (demoIssue 20 2 2 40)) (by decide) (by decide)
  · exact h.2.2.2.2.1 ⟨200, 20, 1, "Test User", some "note b", 7⟩ (by decide)
      (issueToRow (demoIssue 20 2 2 40)) (by decide) (by decide) (by decide)
  · exact h.2.2.2.2.2 ⟨2, 200, "attr", "status_id", some "2", some "3"⟩ (by decide)
      ⟨200, 20, 1, "Test User", some "note b", 7⟩ (by decide) (by decide)
      (issueToRow (demoIssue 20 2 2 40)) (by decide) (by decide) (by decide)

/-- Referential integrity of the detail table: every detail row points at
an existing journal row (no orphans).  Holds for every state reachable
through the store's operations from an empty database. -/
def detailsWellFormed (db : DB) : Prop :=
  ∀ d ∈ db.journal_details, d.journal_id ∈ db.journals.map (fun j => j.id)

theorem insert_issue_ok_inversion (db : DB) (issue : Issue) (now : Nat) (db' : DB)
    (hok : insert_issue_with_journals db issue now = Except.ok db') :
    journalIdsFresh (db.journals.filter (fun j => j.issue_id ≠ issue.id)) issue.journals ∧
    db'.issues = upsertIssueRow db.issues (issueToRow issue) ∧
    db'.journals = db.journals.filter (fun j => j.issue_id ≠ issue.id) ++
      issue.journals.map (journalToRow issue.id) ∧
    db'.journal_details = db.journal_details.filter (fun d =>
        d.journal_id ∉ (db.journals.filter (fun j => j.issue_id = issue.id)).map
          (fun j => j.id)) ++
      journalDetailBlocks db.next_detail_id issue.journals ∧
    db'.projects = db.projects.map (fun p =>
      if p.id = issue.project.id then
        { p with last_issue_activity := some issue.updated_on, last_issues_sync := some now }
      else p) := by
  unfold insert_issue_with_journals at hok
  by_cases h : journalIdsFresh (db.journals.filter (fun j => j.issue_id ≠ issue.id))
      issue.journals
  · rw [if_pos h] at hok
    have h2 := Except.ok.inj hok
    subst h2
    exact ⟨h, rfl, rfl, rfl, rfl⟩
  · rw [if_neg h] at hok
    simp at hok

theorem filter_journals_ne_then_eq_nil (l : List JournalRow) (i : Nat) :
    (l.filter (fun j => j.issue_id ≠ i)).filter (fun j => j.issue_id = i) = [] := by
  rw [List.filter_filter]
  apply List.filter_eq_nil_iff.mpr
  intro a _
  by_cases h : a.issue_id = i <;> simp [h]

theorem filter_journalBlock_eq_self (js : List Journal) (i : Nat) :
    (js.map (journalToRow i)).filter (fun j => j.issue_id = i) =
      js.map (journalToRow i) := by
  apply List.filter_eq_self.mpr
  intro a ha
  rcases List.mem_map.mp ha with ⟨j, _, rfl⟩
  simp [journalToRow]

/-- The journal rows of the refreshed issue after a successful
`insert_issue_with_journals` are exactly the incoming set, in order. -/
theorem journals_of_issue_after_insert (db : DB) (issue : Issue) (now : Nat) (db' : DB)
    (hok : insert_issue_with_journals db issue now = Except.ok db') :
    db'.journals.filter (fun j => j.issue_id = issue.id) =
      issue.journals.map (journalToRow issue.id) := by
  rcases insert_issue_ok_inversion db issue now db' hok with ⟨_, _, hj, _, _⟩
  rw [hj, List.filter_append, filter_journals_ne_then_eq_nil,
    filter_journalBlock_eq_self, List.nil_append]

theorem mem_detailRowsFor (jid s : Nat) (ds : List JournalDetail) (d : JournalDetailRow)
    (hd : d ∈ detailRowsFor jid s ds) : d.journal_id = jid := by
  induction ds generalizing s with
  | nil => cases hd
  | cons a t ih =>
    rcases List.mem_cons.mp hd with h | h
    · rw [h]
    · exact ih _ h

theorem mem_journalDetailBlocks (s : Nat) (js : List Journal) (d : JournalDetailRow)
    (hd : d ∈ journalDetailBlocks s js) : d.journal_id ∈ js.map (fun j => j.id) := by
  induction js generalizing s with
  | nil => cases hd
  | cons j t ih =>
    rcases List.mem_append.mp hd with h | h
    · exact List.mem_cons.mpr (Or.inl (mem_detailRowsFor j.id s j.details d h))
    · exact List.mem_cons.mpr (Or.inr (ih _ h))

theorem filter_detailRowsFor_self (jid s : Nat) (ds : List JournalDetail) :
    (detailRowsFor jid s ds).filter (fun d => d.journal_id = jid) =
      detailRowsFor jid s ds := by
  apply List.filter_eq_self.mpr
  intro d hd
  simp [mem_detailRowsFor jid s ds d hd]

theorem filter_detailRowsFor_other (jid s : Nat) (ds : List JournalDetail) (q : Nat)
    (hne : jid ≠ q) :
    (detailRowsFor jid s ds).filter (fun d => d.journal_id = q) = [] := by
  apply List.filter_eq_nil_iff.mpr
  intro d hd
  have := mem_detailRowsFor jid s ds d hd
  simp [this, hne]

theorem filter_journalDetailBlocks (s : Nat) (js : List Journal) (j : Journal)
    (hnd : (js.map (fun x => x.id)).Nodup) (hj : j ∈ js) :
    ∃ s', (journalDetailBlocks s js).filter (fun d => d.journal_id = j.id) =
      detailRowsFor j.id s' j.details := by
  induction js generalizing s with
  | nil => cases hj
  | cons b t ih =>
    have hnd' : (b.id :: t.map (fun x => x.id)).Nodup := by simpa using hnd
    rw [show journalDetailBlocks s (b :: t) =
      detailRowsFor b.id s b.details ++ journalDetailBlocks (s + b.details.length) t from rfl]
    rw [List.filter_append]
    rcases List.mem_cons.mp hj with h | h
    · subst h
      rw [filter_detailRowsFor_self]
      have hrest : (journalDetailBlocks (s + j.details.length) t).filter
          (fun d => d.journal_id = j.id) = [] := by
        apply List.filter_eq_nil_iff.mpr
        intro d hd
        have hmem := mem_journalDetailBlocks _ t d hd
        have hnot := (List.nodup_cons.mp hnd').1
        simp only [decide_eq_true_eq]
        intro hc
        exact hnot (hc ▸ hmem)
      rw [hrest, List.append_nil]
      exact ⟨s, rfl⟩
    · have hne : b.id ≠ j.id := by
        have hnot := (List.nodup_cons.mp hnd').1
        intro hc
        exact hnot (hc ▸ List.mem_map.mpr ⟨j, h, rfl⟩)
      rw [filter_detailRowsFor_other _ _ _ _ hne, List.nil_append]
      exact ih _ (List.nodup_cons.mp hnd').2 h

theorem map_proj_detailRowsFor (jid s : Nat) (ds : List JournalDetail) :
    (detailRowsFor jid s ds).map (fun d =>
      ({ property := d.property
         name := d.name
         old_value := d.old_value
         new_value := d.new_value } : JournalDetail)) = ds := by
  induction ds generalizing s with
  | nil => rfl
  | cons a t ih => simp [detailRowsFor, ih]

/-- After a successful insert, no surviving old detail row carries one of
the freshly inserted journal ids (needs no-orphan well-formedness:
otherwise an orphaned detail row could alias a new journal id). -/
theorem old_details_disjoint_from_new (db : DB) (issue : Issue)
    (hwf : detailsWellFormed db)
    (hfresh : journalIdsFresh (db.journals.filter (fun j => j.issue_id ≠ issue.id))
      issue.journals)
    (j : Journal) (hj : j ∈ issue.journals) :
    (db.journal_details.filter (fun d =>
      d.journal_id ∉ (db.journals.filter (fun x => x.issue_id = issue.id)).map
        (fun x => x.id))).filter (fun d => d.journal_id = j.id) = [] := by
  apply List.filter_eq_nil_iff.mpr
  intro d hd
  simp only [decide_eq_true_eq]
  intro hc
  have hmem := (List.mem_filter.mp hd).1
  have hnotold := (List.mem_filter.mp hd).2
  simp only [decide_eq_true_eq] at hnotold
  rcases List.mem_map.mp (hwf d hmem) with ⟨jr, hjr, hjrid⟩
  by_cases hiss : jr.issue_id = issue.id
  · exact hnotold (List.mem_map.mpr ⟨jr, List.mem_filter.mpr ⟨hjr, by simpa using hiss⟩,
      hjrid⟩)
  · have hsurv : jr ∈ db.journals.filter (fun x => x.issue_id ≠ issue.id) :=
      List.mem_filter.mpr ⟨hjr, by simpa using hiss⟩
    exact hfresh.2 j hj (List.mem_map.mpr ⟨jr, hsurv, by rw [hjrid, hc]⟩)

/-- The detail rows of each freshly inserted journal after a successful
insert are exactly that journal's detail list (with fresh rowids). -/
theorem details_of_journal_after_insert (db : DB) (issue : Issue) (now : Nat) (db' : DB)
    (hwf : detailsWellFormed db)
    (hok : insert_issue_with_journals db issue now = Except.ok db')
    (j : Journal) (hj : j ∈ issue.journals) :
    ∃ s, db'.journal_details.filter (fun d => d.journal_id = j.id) =
      detailRowsFor j.id s j.details := by
  rcases insert_issue_ok_inversion db issue now db' hok with ⟨hfresh, _, _, hdet, _⟩
  rcases filter_journalDetailBlocks db.next_detail_id issue.journals j hfresh.1 hj
    with ⟨s, hs⟩
  refine ⟨s, ?_⟩
  rw [hdet, List.filter_append, old_details_disjoint_from_new db issue hwf hfresh j hj,
    List.nil_append, hs]

/-- A successful insert preserves detail-table referential integrity. -/
theorem detailsWellFormed_after_insert (db : DB) (issue : Issue) (now : Nat) (db' : DB)
    (hwf : detailsWellFormed db)
    (hok : insert_issue_with_journals db issue now = Except.ok db') :
    detailsWellFormed db' := by
  rcases insert_issue_ok_inversion db issue now db' hok with ⟨_, _, hj, hdet, _⟩
  intro d hd
  rw [hdet] at hd
  rw [hj]
  rcases List.mem_append.mp hd with h | h
  · have hmem := (List.mem_filter.mp h).1
    have hnotold := (List.mem_filter.mp h).2
    simp only [decide_eq_true_eq] at hnotold
    rcases List.mem_map.mp (hwf d hmem) with ⟨jr, hjr, hjrid⟩
    have hiss : ¬jr.issue_id = issue.id := by
      intro hc
      exact hnotold (List.mem_map.mpr ⟨jr, List.mem_filter.mpr ⟨hjr, by simpa using hc⟩,
        hjrid⟩)
    rw [List.map_append]
    exact List.mem_append.mpr (Or.inl (List.mem_map.mpr
      ⟨jr, List.mem_filter.mpr ⟨hjr, by simpa using hiss⟩, hjrid⟩))
  · have := mem_journalDetailBlocks _ _ d h
    rcases List.mem_map.mp this with ⟨x, hx, hxid⟩
    rw [List.map_append]
    refine List.mem_append.mpr (Or.inr ?_)
    rw [List.map_map]
    exact List.mem_map.mpr ⟨x, hx, by simpa [journalToRow] using hxid⟩

/-- C8: two successive `upsert_issue_with_journals` calls for the same
issue id leave exactly the second call's journals (in order) and, for each
of its journals, exactly that journal's detail rows; any journal id of the
first call that is not reused by the second has no journal row and no
detail row left.  (Needs detail-table referential integrity of the
starting state; both calls succeeding is the source's transaction-commit
condition.) -/
theorem c8_journal_replace_wholesale (db db₁ db₂ : DB) (issueA issueB : Issue)
    (now₁ now₂ : Nat)
    (hwf : detailsWellFormed db)
    (h1 : insert_issue_with_journals db issueA now₁ = Except.ok db₁)
    (h2 : insert_issue_with_journals db₁ issueB now₂ = Except.ok db₂)
    (hid : issueB.id = issueA.id) :
    (db₂.journals.filter (fun j => j.issue_id = issueB.id) =
      issueB.journals.map (journalToRow issueB.id)) ∧
    (∀ j ∈ issueB.journals,
      ∃ s, db₂.journal_details.filter (fun d => d.journal_id = j.id) =
        detailRowsFor j.id s j.details) ∧
    (∀ jid, jid ∈ issueA.journals.map (fun j => j.id) →
      jid ∉ issueB.journals.map (fun j => j.id) →
      db₂.journals.filter (fun j => j.id = jid) = [] ∧
      db₂.journal_details.filter (fun d => d.journal_id = jid) = []) := by
  have hwf₁ : detailsWellFormed db₁ := detailsWellFormed_after_insert db issueA now₁ db₁ hwf h1
  rcases insert_issue_ok_inversion db issueA now₁ db₁ h1 with ⟨hfreshA, _, hjA, _, _⟩
  rcases insert_issue_ok_inversion db₁ issueB now₂ db₂ h2 with ⟨_, _, hjB, hdB, _⟩
  refine ⟨journals_of_issue_after_insert db₁ issueB now₂ db₂ h2,
    fun j hj => details_of_journal_after_insert db₁ issueB now₂ db₂ hwf₁ h2 j hj,
    fun jid hA hB => ⟨?_, ?_⟩⟩
  · rw [hjB, List.filter_append]
    have hblock : (issueB.journals.map (journalToRow issueB.id)).filter
        (fun j => j.id = jid) = [] := by
      apply List.filter_eq_nil_iff.mpr
      intro x hx
      rcases List.mem_map.mp hx with ⟨jb, hjb, rfl⟩
      simp only [journalToRow, decide_eq_true_eq]
      intro hc
      exact hB (List.mem_map.mpr ⟨jb, hjb, hc⟩)
    have hrest : (db₁.journals.filter (fun j => j.issue_id ≠ issueB.id)).filter
        (fun j => j.id = jid) = [] := by
      apply List.filter_eq_nil_iff.mpr
      intro x hx
      have hx1 := (List.mem_filter.mp hx).1
      have hx2 := (List.mem_filter.mp hx).2
      simp only [decide_eq_true_eq] at hx2 ⊢
      intro hc
      rw [hjA] at hx1
      rcases List.mem_append.mp hx1 with hdb | hnew
      · rcases List.mem_map.mp hA with ⟨ja, hja, hjaid⟩
        exact hfreshA.2 ja hja (List.mem_map.mpr ⟨x, hdb, by rw [hc, hjaid]⟩)
      · rcases List.mem_map.mp hnew with ⟨ja, _, rfl⟩
        exact hx2 (by simpa [journalToRow] using hid.symm)
    rw [hblock, hrest]
    rfl
  · rw [hdB, List.filter_append]
    have hblock : (journalDetailBlocks db₁.next_detail_id issueB.journals).filter
        (fun d => d.journal_id = jid) = [] := by
      apply List.filter_eq_nil_iff.mpr
      intro d hd
      have := mem_journalDetailBlocks _ _ d hd
      simp only [decide_eq_true_eq]
      intro hc
      exact hB (hc ▸ this)
    have hAisB : db₁.journals.filter (fun j => j.issue_id = issueB.id) =
        issueA.journals.map (journalToRow issueA.id) := by
      rw [hid, hjA, List.filter_append, filter_journals_ne_then_eq_nil,
        filter_journalBlock_eq_self, List.nil_append]
    have hrest : (db₁.journal_details.filter (fun d =>
        d.journal_id ∉ (db₁.journals.filter (fun j => j.issue_id = issueB.id)).map
          (fun j => j.id))).filter (fun d => d.journal_id = jid) = [] := by
      apply List.filter_eq_nil_iff.mpr
      intro d hd
      have hx2 := (List.mem_filter.mp hd).2
      simp only [decide_eq_true_eq] at hx2 ⊢
      intro hc
      apply hx2
      rw [hAisB, List.map_map]
      rcases List.mem_map.mp hA with ⟨ja, hja, hjaid⟩
      exact List.mem_map.mpr ⟨ja, hja, by simpa [journalToRow] using hjaid.trans hc.symm⟩
    rw [hblock, hrest]
    rfl

/-- An issue carrying two journals with details, for the C8/C3 witnesses. -/
def demoIssueJ (js : List Journal) : Issue :=
  { demoIssue 10 1 2 30 with journals := js }

/-- The journal set of the first C8 call. -/
def c8JournalsA : List Journal :=
  [⟨100, ⟨1, "Test User"⟩, some "old note", 6, false,
    [⟨"attr", "status_id", some "1", some "2"⟩]⟩]

/-- The journal set of the second C8 call. -/
def c8JournalsB : List Journal :=
  [⟨200, ⟨1, "Test User"⟩, some "new note", 8, true,
    [⟨"attr", "done_ratio", some "0", some "50"⟩,
     ⟨"cf", "7", none, some "x"⟩]⟩]

/-- The state after the first C8 insert. -/
def c8Db1 : DB :=
  match insert_issue_with_journals dbEmpty (demoIssueJ c8JournalsA) 11 with
  | Except.ok d => d
  | Except.error _ => dbEmpty

/-- The state after the second C8 insert. -/
def c8Db2 : DB :=
  match insert_issue_with_journals c8Db1 (demoIssueJ c8JournalsB) 12 with
  | Except.ok d => d
  | Except.error _ => c8Db1

theorem c8_witness :
    (c8Db2.journals.filter (fun j => j.issue_id = (demoIssueJ c8JournalsB).id) =
      c8JournalsB.map (journalToRow (demoIssueJ c8JournalsB).id)) ∧
    (∃ s, c8Db2.journal_details.filter (fun d => d.journal_id = 200) =
      detailRowsFor 200 s [⟨"attr", "done_ratio", some "0", some "50"⟩,
        ⟨"cf", "7", none, some "x"⟩]) ∧
    (c8Db2.journals.filter (fun j => j.id = 100) = [] ∧
      c8Db2.journal_details.filter (fun d => d.journal_id = 100) = []) := by
  have h := c8_journal_replace_wholesale dbEmpty c8Db1 c8Db2
    (demoIssueJ c8JournalsA) (demoIssueJ c8JournalsB) 11 12
    (fun d hd => absurd hd (by simp [dbEmpty]))
    (by rfl) (by rfl) (by rfl)
  refine ⟨h.1, ?_, h.2.2 100 (by decide) (by decide)⟩
  have h2 := h.2.1 ⟨200, ⟨1, "Test User"⟩, some "new note", 8, true,
    [⟨"attr", "done_ratio", some "0", some "50"⟩, ⟨"cf", "7", none, some "x"⟩]⟩
    (by decide)
  exact h2

instance : IsTotal Journal journalCreatedLE :=
  ⟨fun a b => Nat.le_total a.created_on b.created_on⟩

instance : IsTrans Journal journalCreatedLE :=
  ⟨fun _ _ _ h1 h2 => Nat.le_trans h1 h2⟩

theorem orderedInsert_map_journal (a : Journal) (l : List Journal) (i : Nat) :
    List.orderedInsert journalRowCreatedLE (journalToRow i a) (l.map (journalToRow i)) =
      (List.orderedInsert journalCreatedLE a l).map (journalToRow i) := by
  induction l with
  | nil => rfl
  | cons b t ih =>
    simp only [List.map_cons, List.orderedInsert]
    by_cases h : journalCreatedLE a b
    · rw [if_pos (show journalRowCreatedLE (journalToRow i a) (journalToRow i b) from h),
        if_pos h]
      rfl
    · rw [if_neg (show ¬journalRowCreatedLE (journalToRow i a) (journalToRow i b) from h),
        if_neg h]
      rw [List.map_cons, ih]

theorem insertionSort_map_journal (l : List Journal) (i : Nat) :
    List.insertionSort journalRowCreatedLE (l.map (journalToRow i)) =
      (List.insertionSort journalCreatedLE l).map (journalToRow i) := by
  induction l with
  | nil => rfl
  | cons a t ih => simp [List.insertionSort, ih, orderedInsert_map_journal]

theorem find?_filter_issueRowId_self (l : List IssueRow) (q : Nat) :
    (l.filter (fun x => x.id ≠ q)).find? (fun x => x.id = q) = none := by
  rw [List.find?_filter]
  apply List.find?_eq_none.mpr
  intro x _
  by_cases h : x.id = q <;> simp [h]

theorem find?_upsertIssueRow_self (rows : List IssueRow) (r : IssueRow) :
    (upsertIssueRow rows r).find? (fun x => x.id = r.id) = some r := by
  unfold upsertIssueRow
  rw [List.find?_append, find?_filter_issueRowId_self rows r.id]
  simp [List.find?_cons]

/-- What the single-issue read path reconstructs from the row written for
`issue`: every persisted scalar comes back intact, every non-persisted
field as its read-path default. -/
theorem rowToIssue_issueToRow (issue : Issue) :
    rowToIssue (issueToRow issue) =
      { issue with
        project := ⟨issue.project.id, ""⟩
        parent := none
        category := none
        fixed_version := none
        start_date := none
        is_private := none
        estimated_hours := none
        total_estimated_hours := none
        spent_hours := none
        total_spent_hours := none
        closed_on := none
        journals := []
        custom_fields := []
        attachments := [] } := by
  unfold rowToIssue issueToRow
  cases issue.assigned_to with
  | none => rfl
  | some a => rfl

/-- C3 (corrected): the round-trip through
`upsert_issue_with_journals` / `fetch_issue_with_journals` returns the
issue with all persisted scalar fields intact and its journal set sorted
ascending by creation time, each journal carrying exactly its detail
rows; but the non-persisted fields come back as read-path defaults — the
project display name as `""`, parent/category/fixed-version/start-date/
privacy/hour/closed-on fields as `None`, and each journal's
`private_notes` as `false` — so "every scalar field" does not round-trip.
Needs the no-orphan detail invariant of the starting state and the
insert's success (primary-key freshness of the journal ids). -/
theorem c3_round_trip_amended (db : DB) (issue : Issue) (now : Nat) (db' : DB)
    (hwf : detailsWellFormed db)
    (hok : insert_issue_with_journals db issue now = Except.ok db') :
    get_issue_with_journals db' issue.id =
      some { issue with
        project := ⟨issue.project.id, ""⟩
        parent := none
        category := none
        fixed_version := none
        start_date := none
        is_private := none
        estimated_hours := none
        total_estimated_hours := none
        spent_hours := none
        total_spent_hours := none
        closed_on := none
        custom_fields := []
        attachments := []
        journals := (List.insertionSort journalCreatedLE issue.journals).map
          (fun j => { j with private_notes := false }) } ∧
    List.Sorted journalCreatedLE ((List.insertionSort journalCreatedLE issue.journals).map
      (fun j => { j with private_notes := false })) ∧
    ((List.insertionSort journalCreatedLE issue.journals).map
      (fun j => { j with private_notes := false })).length = issue.journals.length := by
  rcases insert_issue_ok_inversion db issue now db' hok with ⟨hfresh, hiss, hjour, hdet, hproj⟩
  have hfind : db'.issues.find? (fun x => x.id = issue.id) = some (issueToRow issue) := by
    rw [hiss]
    have h := find?_upsertIssueRow_self db.issues (issueToRow issue)
    exact h
  have hfilter : db'.journals.filter (fun j => j.issue_id = issue.id) =
      issue.journals.map (journalToRow issue.id) :=
    journals_of_issue_after_insert db issue now db' hok
  have hpoint : ∀ j ∈ issue.journals,
      rowToJournal db'.journal_details (journalToRow issue.id j) =
        { j with private_notes := false } := by
    intro j hj
    rcases details_of_journal_after_insert db issue now db' hwf hok j hj with ⟨s, hs⟩
    unfold rowToJournal
    rw [show (journalToRow issue.id j).id = j.id from rfl, hs, map_proj_detailRowsFor]
    rfl
  refine ⟨?_, ?_, ?_⟩
  · simp only [get_issue_with_journals, hfind, hfilter, insertionSort_map_journal,
      List.map_map]
    rw [rowToIssue_issueToRow]
    have hmapeq : ((List.insertionSort journalCreatedLE issue.journals).map
        (rowToJournal db'.journal_details ∘ journalToRow issue.id)) =
        ((List.insertionSort journalCreatedLE issue.journals).map
          (fun j => { j with private_notes := false })) := by
      apply List.map_congr_left
      intro j hj
      exact hpoint j ((List.perm_insertionSort journalCreatedLE issue.journals).mem_iff.mp hj)
    rw [hmapeq]
  · apply List.Pairwise.map
    · intro a b hab
      exact hab
    · exact List.sorted_insertionSort journalCreatedLE issue.journals
  · rw [List.length_map]
    exact (List.perm_insertionSort journalCreatedLE issue.journals).length_eq

/-- An issue with one private-notes journal, for the C3 counterexample
and witness. -/
def c3Issue : Issue :=
  demoIssueJ [⟨300, ⟨1, "Test User"⟩, some "hidden comment", 6, true,
    [⟨"attr", "status_id", some "1", some "2"⟩]⟩]

/-- The cache after storing `c3Issue`. -/
def c3Db : DB :=
  match insert_issue_with_journals dbEmpty c3Issue 11 with
  | Except.ok d => d
  | Except.error _ => dbEmpty

theorem c3_counterexample :
    c3Issue.journals.map (fun j => j.private_notes) = [true] ∧
    (get_issue_with_journals c3Db c3Issue.id).map
      (fun i => i.journals.map (fun j => j.private_notes)) = some [false] := by
  exact ⟨rfl, rfl⟩

theorem c3_witness :
    get_issue_with_journals c3Db c3Issue.id =
      some { c3Issue with
        project := ⟨c3Issue.project.id, ""⟩
        parent := none
        category := none
        fixed_version := none
        start_date := none
        is_private := none
        estimated_hours := none
        total_estimated_hours := none
        spent_hours := none
        total_spent_hours := none
        closed_on := none
        custom_fields := []
        attachments := []
        journals := (List.insertionSort journalCreatedLE c3Issue.journals).map
          (fun j => { j with private_notes := false }) } ∧
    List.Sorted journalCreatedLE ((List.insertionSort journalCreatedLE c3Issue.journals).map
      (fun j => { j with private_notes := false })) ∧
    ((List.insertionSort journalCreatedLE c3Issue.journals).map
      (fun j => { j with private_notes := false })).length = c3Issue.journals.length :=
  c3_round_trip_amended dbEmpty c3Issue 11 c3Db
    (fun d hd => absurd hd (by simp [dbEmpty])) (by rfl)

/-- ASCII-case-insensitive character equality. -/
def charsEqCI (a b : Char) : Bool :=
  charLower a = charLower b

/-- The needle is an ASCII-case-insensitive prefix of the haystack. -/
def leadsWithCI : List Char → List Char → Bool
  | [], _ => true
  | _ :: _, [] => false
  | a :: as, b :: bs => charsEqCI a b && leadsWithCI as bs

/-- The needle occurs in the haystack as an ASCII-case-insensitive
substring. -/
def containsCI (needle : List Char) : List Char → Bool
  | [] => leadsWithCI needle []
  | b :: t => leadsWithCI needle (b :: t) || containsCI needle t

/-- The needle is a (case-sensitive) prefix of the haystack. -/
def leadsWithCS : List Char → List Char → Bool
  | [], _ => true
  | _ :: _, [] => false
  | a :: as, b :: bs => a = b && leadsWithCS as bs

/-- The needle occurs in the haystack as a case-sensitive substring: the
predicate the claim asserts for the project filter. -/
def containsCS (needle : List Char) : List Char → Bool
  | [] => leadsWithCS needle []
  | b :: t => leadsWithCS needle (b :: t) || containsCS needle t

/-- The filter text uses no `LIKE` metacharacter. -/
def noWildcards (f : String) : Prop :=
  ∀ c ∈ f.toList, c ≠ '%' ∧ c ≠ '_'

instance (f : String) : Decidable (noWildcards f) :=
  inferInstanceAs (Decidable (∀ c ∈ f.toList, c ≠ '%' ∧ c ≠ '_'))

theorem likeMatch_percent (s : List Char) : likeMatch ['%'] s = true := by
  show suffixAny (likeMatch []) s = true
  induction s with
  | nil => rfl
  | cons c t ih =>
    show (likeMatch [] (c :: t) || suffixAny (likeMatch []) t) = true
    rw [ih, Bool.or_true]

theorem likeMatch_literal_percent (f : List Char)
    (hw : ∀ c ∈ f, c ≠ '%' ∧ c ≠ '_') (s : List Char) :
    likeMatch (f ++ ['%']) s = leadsWithCI f s := by
  induction f generalizing s with
  | nil => simpa [leadsWithCI] using likeMatch_percent s
  | cons c f' ih =>
    have hc := hw c (List.mem_cons.mpr (Or.inl rfl))
    cases s with
    | nil => simp [likeMatch, leadsWithCI, hc.1]
    | cons d t =>
      have ih' := ih (fun x hx => hw x (List.mem_cons.mpr (Or.inr hx))) t
      simp [likeMatch, leadsWithCI, hc.1, hc.2, charsEqCI, ih']

theorem likeMatch_contains (f : List Char)
    (hw : ∀ c ∈ f, c ≠ '%' ∧ c ≠ '_') (s : List Char) :
    likeMatch ('%' :: f ++ ['%']) s = containsCI f s := by
  show suffixAny (likeMatch (f ++ ['%'])) s = containsCI f s
  induction s with
  | nil =>
    show likeMatch (f ++ ['%']) [] = containsCI f []
    rw [likeMatch_literal_percent f hw]
    rfl
  | cons d t ih =>
    show (likeMatch (f ++ ['%']) (d :: t) || suffixAny (likeMatch (f ++ ['%'])) t) =
      containsCI f (d :: t)
    rw [likeMatch_literal_percent f hw, ih]
    rfl

theorem sqlLikeContains_eq_containsCI (f : String) (hw : noWildcards f) (s : String) :
    sqlLikeContains f s = containsCI f.toList s.toList :=
  likeMatch_contains f.toList hw s.toList

/-- C6 (corrected): a non-empty, wildcard-free filter makes
`query_projects` return exactly the cached projects whose name,
identifier, or description contains the filter as an ASCII
*case-insensitive* substring — SQLite's default `LIKE` folds ASCII case,
so the claim's case-sensitive matching is wrong (and `%`/`_` in the
filter act as metacharacters rather than literal text). -/
theorem c6_project_filter_case_insensitive (db : DB) (f : String) (p : Project)
    (hne : ¬f.isEmpty) (hw : noWildcards f) :
    p ∈ get_projects db (some f) ↔
      ∃ r ∈ db.projects, p = rowToProject r ∧
        (containsCI f.toList r.name.toList ∨ containsCI f.toList r.identifier.toList ∨
          ∃ d, r.description = some d ∧ containsCI f.toList d.toList) := by
  have hlike : ∀ s, sqlLikeContains f s = containsCI f.toList s.toList :=
    sqlLikeContains_eq_containsCI f hw
  have hmatch : ∀ r : ProjectRow, projectMatchesFilter f r = true ↔
      (containsCI f.toList r.name.toList ∨ containsCI f.toList r.identifier.toList ∨
        ∃ d, r.description = some d ∧ containsCI f.toList d.toList) := by
    intro r
    unfold projectMatchesFilter
    cases hdesc : r.description with
    | none => simp [hlike, hdesc]
    | some d => simp [hlike, hdesc, or_assoc]
  have hne' : f.isEmpty = false := by simpa using hne
  constructor
  · intro hp
    simp only [get_projects, hne', Bool.false_eq_true, if_false] at hp
    rcases List.mem_map.mp hp with ⟨r, hr, rfl⟩
    have hr' := (List.perm_insertionSort projectRecencyGE _).mem_iff.mp hr
    have hmem := (List.mem_filter.mp hr').1
    have hpred := (List.mem_filter.mp hr').2
    exact ⟨r, hmem, rfl, (hmatch r).mp hpred⟩
  · rintro ⟨r, hr, rfl, hc⟩
    simp only [get_projects, hne', Bool.false_eq_true, if_false]
    apply List.mem_map.mpr
    refine ⟨r, ?_, rfl⟩
    apply (List.perm_insertionSort projectRecencyGE _).mem_iff.mpr
    exact List.mem_filter.mpr ⟨hr, (hmatch r).mpr hc⟩

/-- The single cached project of the C6 scenario: its name contains
"alpha" only up to ASCII case. -/
def c6Row : ProjectRow :=
  { c1Row with name := "Alpha Project", identifier := "proj-1" }

/-- Cache holding just `c6Row`. -/
def c6Db : DB :=
  { dbEmpty with projects := [c6Row] }

theorem c6_counterexample :
    rowToProject c6Row ∈ get_projects c6Db (some "alpha") ∧
    containsCS "alpha".toList c6Row.name.toList = false ∧
    containsCS "alpha".toList c6Row.identifier.toList = false ∧
    c6Row.description = some "Test project" ∧
    containsCS "alpha".toList "Test project".toList = false := by
  refine ⟨?_, by decide, by decide, by decide, by decide⟩
  decide

theorem c6_witness :
    rowToProject c6Row ∈ get_projects c6Db (some "alpha") :=
  (c6_project_filter_case_insensitive c6Db "alpha" (rowToProject c6Row)
    (by decide) (by decide)).mpr
    ⟨c6Row, by decide, rfl, Or.inl (by decide)⟩

/-- Non-decreasing priority-id comparison on returned issues. -/
def issuePriorityLE (a b : Issue) : Prop :=
  a.priority.id ≤ b.priority.id

/-- Non-increasing priority-id comparison on returned issues. -/
def issuePriorityGE (a b : Issue) : Prop :=
  b.priority.id ≤ a.priority.id

instance : IsTotal IssueRow (issueOrderedBefore IssueSortOrder.PriorityAsc) :=
  ⟨fun a b => Nat.le_total a.priority_id b.priority_id⟩

instance : IsTrans IssueRow (issueOrderedBefore IssueSortOrder.PriorityAsc) :=
  ⟨fun _ _ _ h1 h2 => Nat.le_trans h1 h2⟩

instance : IsTotal IssueRow (issueOrderedBefore IssueSortOrder.PriorityDesc) :=
  ⟨fun a b => Nat.le_total b.priority_id a.priority_id⟩

instance : IsTrans IssueRow (issueOrderedBefore IssueSortOrder.PriorityDesc) :=
  ⟨fun _ _ _ h1 h2 => Nat.le_trans h2 h1⟩

/-- Two lists sorted non-increasingly on a key that is duplicate-free are
equal whenever they are permutations of each other. -/
theorem eq_of_perm_of_sorted_priority_desc (l₁ l₂ : List IssueRow)
    (hperm : l₁.Perm l₂)
    (h₁ : List.Pairwise (fun a b => b.priority_id ≤ a.priority_id) l₁)
    (h₂ : List.Pairwise (fun a b => b.priority_id ≤ a.priority_id) l₂)
    (hnd : (l₁.map (fun r => r.priority_id)).Nodup) : l₁ = l₂ := by
  induction l₁ generalizing l₂ with
  | nil => exact (List.Perm.nil_eq hperm).symm ▸ rfl
  | cons a t₁ ih =>
    cases l₂ with
    | nil => exact absurd hperm.symm (by simp)
    | cons b t₂ =>
      have hnd' : (a.priority_id :: t₁.map (fun r => r.priority_id)).Nodup := by
        simpa using hnd
      have hab : a = b := by
        by_contra hne
        have hain : a ∈ b :: t₂ := hperm.mem_iff.mp (List.mem_cons.mpr (Or.inl rfl))
        have hbin : b ∈ a :: t₁ := hperm.mem_iff.mpr (List.mem_cons.mpr (Or.inl rfl))
        have hat₂ : a ∈ t₂ := by
          rcases List.mem_cons.mp hain with h | h
          · exact absurd h hne
          · exact h
        have hbt₁ : b ∈ t₁ := by
          rcases List.mem_cons.mp hbin with h | h
          · exact absurd h.symm hne
          · exact h
        have h1 : b.priority_id ≤ a.priority_id := List.rel_of_pairwise_cons h₁ hbt₁
        have h2 : a.priority_id ≤ b.priority_id := List.rel_of_pairwise_cons h₂ hat₂
        have hkey : b.priority_id = a.priority_id := Nat.le_antisymm h1 h2
        have hnot := (List.nodup_cons.mp hnd').1
        exact hnot (hkey ▸ List.mem_map.mpr ⟨b, hbt₁, rfl⟩)
      subst hab
      have ht := hperm.cons_inv
      rw [ih t₂ ht (List.pairwise_cons.mp h₁).2 (List.pairwise_cons.mp h₂).2
        (List.nodup_cons.mp hnd').2]

/-- C7 (corrected): `query_issues` with `PriorityAsc` returns a sequence
non-decreasing in priority id and `PriorityDesc` one non-increasing; when
the priority ids of the filtered set are pairwise distinct, the
`PriorityDesc` sequence is exactly the reverse of the `PriorityAsc` one.
With ties the two orders need not be mirror images: SQL `ORDER BY` leaves
the relative order of equal keys unspecified, and under this embedding's
stable-sort refinement both directions list tied rows in table order. -/
theorem c7_priority_sort_amended (db : DB) (pid : Option Nat) (f : Option String)
    (aid : Option Nat) :
    List.Sorted issuePriorityLE (get_issues db pid IssueSortOrder.PriorityAsc f aid) ∧
    List.Sorted issuePriorityGE (get_issues db pid IssueSortOrder.PriorityDesc f aid) ∧
    (((db.issues.filter (issueMatchesQuery pid f aid)).map (fun r => r.priority_id)).Nodup →
      get_issues db pid IssueSortOrder.PriorityDesc f aid =
        (get_issues db pid IssueSortOrder.PriorityAsc f aid).reverse) := by
  refine ⟨?_, ?_, ?_⟩
  · apply List.Pairwise.map rowToIssue
    · intro a b hab
      exact hab
    · exact List.sorted_insertionSort (issueOrderedBefore IssueSortOrder.PriorityAsc) _
  · apply List.Pairwise.map rowToIssue
    · intro a b hab
      exact hab
    · exact List.sorted_insertionSort (issueOrderedBefore IssueSortOrder.PriorityDesc) _
  · intro hnd
    unfold get_issues
    rw [← List.map_reverse]
    have hrows : List.insertionSort (issueOrderedBefore IssueSortOrder.PriorityDesc)
        (db.issues.filter (issueMatchesQuery pid f aid)) =
        (List.insertionSort (issueOrderedBefore IssueSortOrder.PriorityAsc)
          (db.issues.filter (issueMatchesQuery pid f aid))).reverse := by
      apply eq_of_perm_of_sorted_priority_desc
      · exact (List.perm_insertionSort _ _).trans
          ((List.perm_insertionSort _ _).symm.trans (List.reverse_perm _).symm)
      · exact List.sorted_insertionSort (issueOrderedBefore IssueSortOrder.PriorityDesc) _
      · exact List.pairwise_reverse.mpr
          (List.sorted_insertionSort (issueOrderedBefore IssueSortOrder.PriorityAsc) _)
      · exact ((List.perm_insertionSort (issueOrderedBefore IssueSortOrder.PriorityDesc)
          _).map (fun r => r.priority_id)).nodup_iff.mpr hnd
    rw [hrows]

/-- Two cached issues sharing priority id 2: a tie. -/
def c7Db : DB :=
  { dbEmpty with issues := [issueToRow (demoIssue 1 1 2 30), issueToRow (demoIssue 2 1 2 40)] }

theorem c7_counterexample :
    get_issues c7Db none IssueSortOrder.PriorityDesc none none ≠
      (get_issues c7Db none IssueSortOrder.PriorityAsc none none).reverse := by
  decide

/-- Two cached issues with distinct priority ids 1 and 2. -/
def c7DbW : DB :=
  { dbEmpty with issues := [issueToRow (demoIssue 1 1 1 30), issueToRow (demoIssue 2 1 2 40)] }

theorem c7_witness :
    List.Sorted issuePriorityLE (get_issues c7DbW none IssueSortOrder.PriorityAsc none none) ∧
    List.Sorted issuePriorityGE (get_issues c7DbW none IssueSortOrder.PriorityDesc none none) ∧
    get_issues c7DbW none IssueSortOrder.PriorityDesc none none =
      (get_issues c7DbW none IssueSortOrder.PriorityAsc none none).reverse := by
  have h := c7_priority_sort_amended c7DbW none none none
  exact ⟨h.1, h.2.1, h.2.2 (by decide)⟩

end Minecli
